import Mathlib

/-!
Shallow embedding of the arch_repo_builder build-orchestration pipeline
(src/pkgbuild.rs and src/git.rs), together with theorems checking the
specification's claims about it.  Each Rust function relevant to a claim is
translated into a pure Lean definition; child processes are modelled by
oracles giving their exit codes and output, and filesystem effects by
explicit state records and event traces.
-/

namespace ArchRepoBuilder

/-- Version mode of a recipe, from `enum Pkgver` in pkgbuild.rs (lines 42-46):
`Plain` for a static version, `Func` carrying the computed dynamic version. -/
inductive Pkgver
  | Plain
  | Func (pkgver : String)
  deriving DecidableEq, Repr

/-- Package id computed by `fill_all_pkgdirs` (pkgbuild.rs 393-406): the string
`"<name>-<commit>"`, extended with `"-<pkgver>"` when the recipe has a
dynamic version (`Pkgver::Func`). -/
def pkg_id (name commit : String) (pv : Pkgver) : String :=
  let base := name ++ "-" ++ commit
  match pv with
  | .Plain => base
  | .Func pkgver => base ++ "-" ++ pkgver

/-- Output directory of a recipe: `fill_all_pkgdirs` pushes the pkg_id onto
the initial `pkgdir` value `"pkgs"` (pkgbuild.rs 99 and 401); `PathBuf::push`
inserts the path separator. -/
def output_dir (pkgid : String) : String := "pkgs" ++ "/" ++ pkgid

/-- C5: pkg_id equals `"<name>-<commit>"` for a static-version recipe and
`"<name>-<commit>-<dynamic_version>"` for a dynamic-version recipe,
`output_dir` equals `<output_root>/<pkg_id>` with output root `pkgs`, and the
assignment is a deterministic pure function of `(name, commit, version_mode)`:
identical inputs give identical pkg_ids. -/
theorem pkg_id_pure_shape :
    (∀ n c, pkg_id n c .Plain = n ++ "-" ++ c) ∧
    (∀ n c v, pkg_id n c (.Func v) = n ++ "-" ++ c ++ "-" ++ v) ∧
    (∀ pid, output_dir pid = "pkgs/" ++ pid) ∧
    (∀ n₁ c₁ pv₁ n₂ c₂ pv₂, n₁ = n₂ → c₁ = c₂ → pv₁ = pv₂ →
      pkg_id n₁ c₁ pv₁ = pkg_id n₂ c₂ pv₂ ∧
      output_dir (pkg_id n₁ c₁ pv₁) = output_dir (pkg_id n₂ c₂ pv₂)) := by
  refine ⟨fun n c => rfl, fun n c v => rfl, fun pid => rfl, ?_⟩
  intro n₁ c₁ pv₁ n₂ c₂ pv₂ hn hc hpv
  subst hn; subst hc; subst hpv
  exact ⟨rfl, rfl⟩

/-- Witness for `pkg_id_pure_shape` at a concrete dynamic-version input. -/
theorem pkg_id_pure_shape_witness :
    pkg_id "foo" "0123abcd" (.Func "1.2.3")
      = pkg_id "foo" "0123abcd" (.Func "1.2.3") ∧
    output_dir (pkg_id "foo" "0123abcd" (.Func "1.2.3"))
      = output_dir (pkg_id "foo" "0123abcd" (.Func "1.2.3")) :=
  pkg_id_pure_shape.2.2.2 "foo" "0123abcd" (.Func "1.2.3")
    "foo" "0123abcd" (.Func "1.2.3") rfl rfl rfl

/-- Byte string `b"function\n"` that the probe child's stdout is compared
against (pkgbuild.rs 365). -/
def functionBytes : List Nat := [102, 117, 110, 99, 116, 105, 111, 110, 10]

/-- Version-type probe decision: `fill_all_pkgvers` marks a recipe dynamic
exactly when the probe child's stdout slice equals `b"function\n"`
(pkgbuild.rs 360-368). -/
def probeMarksDynamic (stdout : List Nat) : Bool := stdout == functionBytes

/-- Per-recipe inputs to `fill_all_pkgvers`: the recipe name, the raw stdout
bytes of the `type -t pkgver` probe child, and the stdout of the pkgver
runner child (only consulted for dynamic recipes). -/
structure VersionInputs where
  name : String
  probeStdout : List Nat
  pkgverStdout : String

/-- Version-mode outcome of `fill_all_pkgvers` for one recipe: dynamic
recipes get `Pkgver::Func` with the runner's trimmed stdout
(pkgbuild.rs 383-390), everything else stays `Pkgver::Plain`. -/
def resolvedPkgver (r : VersionInputs) : Pkgver :=
  if probeMarksDynamic r.probeStdout then .Func r.pkgverStdout.trim else .Plain

/-- Child-process phases of `fill_all_pkgvers`, as observable events. -/
inductive VersionEvent
  | probe (name : String)
  | extractSrc (name : String)
  | runPkgver (name : String)
  deriving DecidableEq, Repr

/-- Recipes whose probe stdout was exactly `b"function\n"`
(`pkgbuilds_with_pkgver_func`, pkgbuild.rs 359-368). -/
def dynamicRecipes (rs : List VersionInputs) : List VersionInputs :=
  rs.filter (fun r => probeMarksDynamic r.probeStdout)

/-- Order of the child-process phases in `fill_all_pkgvers`
(pkgbuild.rs 346-391): all probe children are spawned and awaited first, then
`extract_sources` runs on the dynamic recipes, then the pkgver runner
children are spawned. -/
def fill_all_pkgvers_events (rs : List VersionInputs) : List VersionEvent :=
  rs.map (fun r => .probe r.name)
    ++ (dynamicRecipes rs).map (fun r => .extractSrc r.name)
    ++ (dynamicRecipes rs).map (fun r => .runPkgver r.name)

theorem getElem_append_length_le {α : Type} (l₁ l₂ : List α) (i : Nat) (x : α)
    (h : (l₁ ++ l₂)[i]? = some x) (hx : x ∉ l₁) : l₁.length ≤ i := by
  by_contra hlt
  push_neg at hlt
  rw [List.getElem?_append_left hlt] at h
  exact hx (List.getElem?_mem h)

theorem getElem_append_lt_length {α : Type} (l₁ l₂ : List α) (i : Nat) (x : α)
    (h : (l₁ ++ l₂)[i]? = some x) (hx : x ∉ l₂) : i < l₁.length := by
  by_contra hge
  push_neg at hge
  rw [List.getElem?_append_right hge] at h
  exact hx (List.getElem?_mem h)

/-- C6: the probe marks a recipe dynamic iff its stdout is exactly the bytes
`"function\n"`; a dynamic recipe's version is the trimmed stdout of its
pkgver runner child; any other probe output leaves the recipe static; and in
the event order of `fill_all_pkgvers` every source extraction happens before
every pkgver runner child. -/
theorem version_probe_exact_and_order :
    (∀ s, probeMarksDynamic s = true ↔ s = functionBytes) ∧
    (∀ r, probeMarksDynamic r.probeStdout = true →
        resolvedPkgver r = .Func r.pkgverStdout.trim) ∧
    (∀ r, probeMarksDynamic r.probeStdout = false → resolvedPkgver r = .Plain) ∧
    (∀ (rs : List VersionInputs) (i j : Nat) (n m : String),
      (fill_all_pkgvers_events rs)[i]? = some (VersionEvent.extractSrc n) →
      (fill_all_pkgvers_events rs)[j]? = some (VersionEvent.runPkgver m) →
      i < j) := by
  refine ⟨fun s => by simp [probeMarksDynamic], ?_, ?_, ?_⟩
  · intro r h; simp [resolvedPkgver, h]
  · intro r h; simp [resolvedPkgver, h]
  · intro rs i j n m hi hj
    unfold fill_all_pkgvers_events at hi hj
    have hiLt := getElem_append_lt_length _ _ i _ hi (by simp)
    have hjGe := getElem_append_length_le _ _ j _ hj (by simp)
    omega

/-- Witness for `version_probe_exact_and_order`: a concrete recipe whose probe
printed exactly `function` plus newline is resolved to the trimmed runner
stdout. -/
theorem version_probe_exact_and_order_witness :
    resolvedPkgver ⟨"foo", functionBytes, " 1.2.3\n"⟩ = .Func (" 1.2.3\n".trim) :=
  version_probe_exact_and_order.2.1 ⟨"foo", functionBytes, " 1.2.3\n"⟩ (by decide)

/-- Builder-entry view of one recipe for the build-necessity decision:
whether `pkgdir.read_dir()` yields at least one entry (pkgbuild.rs 412-417),
and the recipe's `extract` flag. -/
structure BuildFlags where
  outdirHasEntry : Bool
  extract : Bool
  deriving DecidableEq, Repr

/-- Effects of the per-recipe body of `extract_if_need_build`
(pkgbuild.rs 408-439): the updated flags, whether a scratch-dir removal
thread was spawned, and whether the recipe was pushed onto
`pkgbuilds_need_build` (and hence freshly extracted). -/
structure BuildDecision where
  flags : BuildFlags
  scratchRemoved : Bool
  queuedForExtract : Bool
  deriving DecidableEq, Repr

/-- Per-recipe body of `extract_if_need_build` (pkgbuild.rs 411-436): a
non-empty output dir means already built, so the recipe is not queued and a
prior extraction is cleaned up; otherwise the recipe is queued unless it was
already extracted for version resolution. -/
def extract_if_need_build_one (pb : BuildFlags) : BuildDecision :=
  if pb.outdirHasEntry then
    if pb.extract then
      { flags := { pb with extract := false },
        scratchRemoved := true, queuedForExtract := false }
    else
      { flags := pb, scratchRemoved := false, queuedForExtract := false }
  else
    if pb.extract then
      { flags := pb, scratchRemoved := false, queuedForExtract := false }
    else
      { flags := { pb with extract := true },
        scratchRemoved := false, queuedForExtract := true }

/-- Loop of `extract_if_need_build` over all recipes (pkgbuild.rs 411-436). -/
def extract_if_need_build (pbs : List BuildFlags) : List BuildDecision :=
  pbs.map extract_if_need_build_one

/-- Build-spawn predicate of `build_any_needed` (pkgbuild.rs 580-587): a
build thread is spawned for a recipe iff its `extract` flag is still set
after `extract_if_need_build`. -/
def buildSpawned (pb : BuildFlags) : Bool := pb.extract

/-- C4: for every recipe whose output directory is non-empty at Builder
entry, no build subprocess is spawned for that recipe, and if the recipe was
already extracted for version resolution its scratch directory is removed
and its extract flag cleared. -/
theorem cache_hit_short_circuit :
    ∀ (pbs : List BuildFlags) (pb : BuildFlags), pb ∈ pbs →
      pb.outdirHasEntry = true →
      extract_if_need_build_one pb ∈ extract_if_need_build pbs ∧
      buildSpawned (extract_if_need_build_one pb).flags = false ∧
      (extract_if_need_build_one pb).queuedForExtract = false ∧
      (pb.extract = true →
        (extract_if_need_build_one pb).scratchRemoved = true ∧
        (extract_if_need_build_one pb).flags.extract = false) := by
  intro pbs pb hmem h
  refine ⟨List.mem_map_of_mem _ hmem, ?_, ?_, ?_⟩ <;>
    rcases pb with ⟨he, hx⟩ <;> cases hx <;>
      simp_all [extract_if_need_build_one, buildSpawned]

/-- Witness for `cache_hit_short_circuit`: a recipe with a non-empty output
dir that was extracted for version resolution. -/
theorem cache_hit_short_circuit_witness :
    buildSpawned (extract_if_need_build_one ⟨true, true⟩).flags = false ∧
    (extract_if_need_build_one ⟨true, true⟩).scratchRemoved = true :=
  have h := cache_hit_short_circuit [⟨true, true⟩] ⟨true, true⟩
    (by decide) (by decide)
  ⟨h.2.1, (h.2.2.2 (by decide)).1⟩

/-- Observable events of `get_pkgbuilds` (pkgbuild.rs 272-309): health
checks over all recipes and the sync step (which performs the git fetches). -/
inductive SyncEvent
  | healthCheck (ok : Bool)
  | syncStep
  deriving DecidableEq, Repr

/-- Control flow of `get_pkgbuilds` (pkgbuild.rs 272-309).  The oracle
booleans give the outcomes of `healthy_pkgbuilds` before the sync (consulted
only when `hold` is set) and after it.  Returns the event list and whether
the run panics with "Updating broke some of our PKGBUILDs". -/
def get_pkgbuilds_flow (hold healthy0 healthyAfter : Bool) :
    List SyncEvent × Bool :=
  let pre : List SyncEvent := if hold then [.healthCheck healthy0] else []
  let updatePkg : Bool := if hold then ! healthy0 else true
  if updatePkg then
    (pre ++ [.syncStep, .healthCheck healthyAfter], ! healthyAfter)
  else
    (pre, false)

/-- C7: with holdpkg set and all recipes healthy the sync step is skipped
entirely (no sync event, hence zero git fetches); with holdpkg set but an
unhealthy recipe a sync is forced regardless; and whenever a sync happens it
is immediately followed by a second health check whose failure makes the run
fatal. -/
theorem holdpkg_sync_flow :
    (∀ hA, get_pkgbuilds_flow true true hA
        = ([SyncEvent.healthCheck true], false)) ∧
    (∀ hA, SyncEvent.syncStep ∈ (get_pkgbuilds_flow true false hA).1) ∧
    (∀ (hold h0 hA : Bool) (i : Nat),
      (get_pkgbuilds_flow hold h0 hA).1[i]? = some SyncEvent.syncStep →
      (get_pkgbuilds_flow hold h0 hA).1[i + 1]?
          = some (SyncEvent.healthCheck hA) ∧
      (hA = false → (get_pkgbuilds_flow hold h0 hA).2 = true)) := by
  refine ⟨by decide, by decide, ?_⟩
  intro hold h0 hA i hm
  cases hold <;> cases h0 <;> cases hA <;>
    rcases i with _ | _ | _ | i <;>
    simp_all [get_pkgbuilds_flow]

/-- Witness for `holdpkg_sync_flow`: with holdpkg unset and an unhealthy
post-sync check, the sync at index 0 is followed by the failed health check
and the run is fatal. -/
theorem holdpkg_sync_flow_witness :
    (get_pkgbuilds_flow false true false).1[0 + 1]?
        = some (SyncEvent.healthCheck false) ∧
    (get_pkgbuilds_flow false true false).2 = true :=
  have h := holdpkg_sync_flow.2.2 false true false 0 (by decide)
  ⟨h.1, h.2 rfl⟩

/-- Record of one fetch call performed by `fetch_repo` (git.rs 93-115),
marking whether it went through the configured proxy. -/
structure FetchAttempt where
  viaProxy : Bool
  deriving DecidableEq, Repr

/-- Control flow of `fetch_repo` (git.rs 93-115): a first fetch without the
proxy; on failure, exactly one retry through the proxy when one is
configured, where a second failure panics ("Failed to fetch even with
proxy"); with no proxy configured, the first failure panics immediately.
The oracle booleans give the outcomes of the two possible fetch calls. -/
def fetch_repo (firstOk : Bool) (proxy : Option String) (proxyOk : Bool) :
    List FetchAttempt × Except String Unit :=
  if firstOk then ([⟨false⟩], .ok ())
  else
    match proxy with
    | some _ =>
      if proxyOk then ([⟨false⟩, ⟨true⟩], .ok ())
      else ([⟨false⟩, ⟨true⟩], .error "Failed to fetch even with proxy")
    | none => ([⟨false⟩], .error "Failed to fetch from remote")

/-- C9: a failed fetch with a configured proxy is retried exactly once
through the proxy and a second failure is fatal; a failed fetch without a
proxy is immediately fatal; a successful first fetch does neither. -/
theorem fetch_proxy_retry :
    ∀ (firstOk proxyOk : Bool) (proxy : Option String),
      (firstOk = false → proxy ≠ none →
        (fetch_repo firstOk proxy proxyOk).1 = [⟨false⟩, ⟨true⟩] ∧
        (proxyOk = false →
          (fetch_repo firstOk proxy proxyOk).2
            = .error "Failed to fetch even with proxy") ∧
        (proxyOk = true → (fetch_repo firstOk proxy proxyOk).2 = .ok ())) ∧
      (firstOk = false → proxy = none →
        (fetch_repo firstOk proxy proxyOk).1 = [⟨false⟩] ∧
        (fetch_repo firstOk proxy proxyOk).2
          = .error "Failed to fetch from remote") ∧
      (firstOk = true →
        (fetch_repo firstOk proxy proxyOk).1 = [⟨false⟩] ∧
        (fetch_repo firstOk proxy proxyOk).2 = .ok ()) := by
  intro firstOk proxyOk proxy
  rcases proxy with _ | p <;> cases firstOk <;> cases proxyOk <;>
    simp [fetch_repo]

/-- Witness for `fetch_proxy_retry`: first fetch fails, proxy configured,
proxy retry also fails. -/
theorem fetch_proxy_retry_witness :
    (fetch_repo false (some "http://proxy.lan") false).1 = [⟨false⟩, ⟨true⟩] ∧
    (fetch_repo false (some "http://proxy.lan") false).2
      = .error "Failed to fetch even with proxy" :=
  have h := (fetch_proxy_retry false false (some "http://proxy.lan")).1
    rfl (by simp)
  ⟨h.1, h.2.1 rfl⟩

/-- Tag-download option of a fetch, after git2's `AutotagOption`. -/
inductive AutotagOption
  | unspecifiedTags
  | autoTags
  | noTags
  | allTags
  deriving DecidableEq, Repr

/-- Prune option of a fetch, after git2's `FetchPrune`. -/
inductive FetchPrune
  | unspecifiedPrune
  | onPrune
  | offPrune
  deriving DecidableEq, Repr

/-- Fetch options relevant to the claims. -/
structure FetchOpts where
  downloadTags : AutotagOption
  prune : FetchPrune
  updateFetchhead : Bool
  deriving DecidableEq, Repr

/-- Fetch options built by `fetch_opts_init` (git.rs 77-91): download all
tags, prune on, update FETCH_HEAD. -/
def fetch_opts_init : FetchOpts :=
  { downloadTags := .allTags, prune := .onPrune, updateFetchhead := true }

/-- Modelled from the spec: the refspec selector of the `git::Repo` sync
API.  `sync_pkgbuilds` (pkgbuild.rs 111-117) calls
`git::Repo::sync_mt(..., git::Refspecs::MasterOnly, ...)`, but the
`Refspecs`-aware `Repo` sync code is missing from the source snapshot
(src/git.rs holds only an older free-function variant without it); per the
spec, recipe repositories fetch with only
`+refs/heads/master:refs/heads/master` while full-mirror mode fetches with
`+refs/*:refs/*`. -/
inductive Refspecs
  | MasterOnly
  | All
  deriving DecidableEq, Repr

/-- Modelled from the spec: the refspec strings a sync with the given
`Refspecs` selector passes to the git fetch. -/
def Refspecs.toStrings : Refspecs → List String
  | .MasterOnly => ["+refs/heads/master:refs/heads/master"]
  | .All => ["+refs/*:refs/*"]

/-- Refspec selector that `sync_pkgbuilds` passes for recipe repositories
(pkgbuild.rs 116). -/
def sync_pkgbuilds_refspecs : Refspecs := .MasterOnly

/-- C8: syncing recipe repositories fetches with only the refspec
`+refs/heads/master:refs/heads/master`, the full refspec `+refs/*:refs/*`
being reserved for full-mirror mode, while downloading all tags, pruning,
and updating FETCH_HEAD. -/
theorem sync_refspecs_and_opts :
    sync_pkgbuilds_refspecs.toStrings
      = ["+refs/heads/master:refs/heads/master"] ∧
    Refspecs.All.toStrings = ["+refs/*:refs/*"] ∧
    fetch_opts_init.downloadTags = .allTags ∧
    fetch_opts_init.prune = .onPrune ∧
    fetch_opts_init.updateFetchhead = true :=
  ⟨rfl, rfl, rfl, rfl, rfl⟩

/-- Filesystem and process events of the tail of `work` that follows
`prepare_sources` (pkgbuild.rs 634-641). -/
inductive WorkEvent
  | removeDir (path : String)
  | createDir (path : String)
  | spawnBuild (pkgid : String)
  | linkLatest (pkgid : String)
  | janitor (root : String)
  deriving DecidableEq, Repr

/-- Minimal recipe view for the tail of `work`: pkg id and extract flag. -/
structure WorkRecipe where
  pkgid : String
  extract : Bool
  deriving DecidableEq, Repr

/-- Events of `build_any_needed` (pkgbuild.rs 574-606): the `updated/` and
`latest/` views are deleted and recreated, a build thread is spawned for
each recipe whose extract flag is set, the shared scratch root is removed,
and every recipe is linked into `latest/`. -/
def build_any_needed_events (pbs : List WorkRecipe) : List WorkEvent :=
  [.removeDir "pkgs/updated", .removeDir "pkgs/latest",
      .createDir "pkgs/updated", .createDir "pkgs/latest"]
    ++ (pbs.filter (fun pb => pb.extract)).map (fun pb => .spawnBuild pb.pkgid)
    ++ [.removeDir "build"]
    ++ pbs.map (fun pb => .linkLatest pb.pkgid)

/-- Used-name set of `clean_pkgdir` (pkgbuild.rs 608-615): the pkg ids plus
the reserved names `updated` and `latest` (the source additionally sorts the
list, which does not change membership). -/
def clean_pkgdir_used (pbs : List WorkRecipe) : List String :=
  pbs.map (fun pb => pb.pkgid) ++ ["updated", "latest"]

/-- Tail of `work` after `prepare_sources` (pkgbuild.rs 634-641): with
`nobuild` set it returns immediately; otherwise `build_any_needed` runs,
followed by `clean_pkgdir` over the output root unless `noclean` is set. -/
def work_tail (nobuild noclean : Bool) (pbs : List WorkRecipe) :
    List WorkEvent :=
  if nobuild then []
  else
    build_any_needed_events pbs
      ++ (if noclean then [] else [.janitor "pkgs"])

/-- C10: with nobuild set, `work` returns right after source preparation —
no build subprocess is spawned, the `updated/` and `latest/` views are not
touched, and the output-root janitor is skipped even when noclean is false;
by contrast, without nobuild the janitor does run when noclean is false. -/
theorem nobuild_frame :
    (∀ (noclean : Bool) (pbs : List WorkRecipe),
      work_tail true noclean pbs = []) ∧
    (∀ pbs : List WorkRecipe,
      WorkEvent.janitor "pkgs" ∈ work_tail false false pbs) := by
  constructor
  · intro noclean pbs; simp [work_tail]
  · intro pbs; simp [work_tail, build_any_needed_events]

/-- Contents of one of the directories handled by `build`, relative to the
complete artifact set a finished build of the recipe produces: missing,
existing with fewer artifacts than a completed build (including empty), or
holding the complete set. -/
inductive DirState
  | absent
  | incomplete
  | complete
  deriving DecidableEq, Repr

/-- Filesystem state observed during one `build` invocation
(pkgbuild.rs 484-572): the output dir `pkgs/<pkg_id>`, the temp dir
`pkgs/<pkg_id>.temp`, and whether the per-recipe scratch dir exists. -/
structure BuildFs where
  pkgdir : DirState
  temp : DirState
  scratch : Bool
  deriving DecidableEq, Repr

/-- Oracle for the makepkg child processes of one recipe: `exit i` is the
exit code of attempt `i` (`none` models death by signal), and `mid i` is the
observable contents of the temp dir while attempt `i` is writing under
PKGDEST. -/
structure BuildOracle where
  exit : Nat → Option Nat
  mid : Nat → DirState

/-- Effect of `create_dir_all(&temp_pkgdir)`: creates the (empty) temp dir
when missing, otherwise a no-op. -/
def mkTempDir (s : BuildFs) : BuildFs :=
  { s with temp := if s.temp = .absent then .incomplete else s.temp }

/-- Effect of `remove_dir_all(&pkgbuild.pkgdir)` (result ignored). -/
def rmPkgdir (s : BuildFs) : BuildFs := { s with pkgdir := .absent }

/-- Effect of `remove_dir_all(&temp_pkgdir)` (result ignored). -/
def rmTempDir (s : BuildFs) : BuildFs := { s with temp := .absent }

@[simp] theorem mkTempDir_pkgdir (s : BuildFs) :
    (mkTempDir s).pkgdir = s.pkgdir := rfl

@[simp] theorem rmPkgdir_pkgdir (s : BuildFs) :
    (rmPkgdir s).pkgdir = .absent := rfl

@[simp] theorem rmPkgdir_temp (s : BuildFs) : (rmPkgdir s).temp = s.temp := rfl

@[simp] theorem rmTempDir_temp (s : BuildFs) :
    (rmTempDir s).temp = .absent := rfl

@[simp] theorem rmTempDir_pkgdir (s : BuildFs) :
    (rmTempDir s).pkgdir = s.pkgdir := rfl

/-- How the retry loop of `build` was left. -/
inductive LoopExit
  | earlyReturn
  | toPublish
  deriving DecidableEq, Repr

/-- Result of the retry loop: the observable states in order, the attempt
indices for which a makepkg child was spawned, the final state, and how the
loop was left. -/
structure LoopOut where
  trace : List BuildFs
  attempts : List Nat
  state : BuildFs
  exit : LoopExit
  deriving Repr

/-- Retry loop of `build` (pkgbuild.rs 523-550), one step per index of the
Rust iteration `for i in 1..3`.  Each iteration recreates the temp dir and
runs one makepkg attempt, which writes only under PKGDEST, i.e. into the
temp dir.  Exit code 0 breaks to the publish step with the complete artifact
set in the temp dir; any other outcome removes the output dir and the temp
dir and — when `i == 3`, which the source treats as the last try — returns
from `build` early, otherwise discards the scratch dir and re-extracts the
sources before the next attempt. -/
def buildLoop (o : BuildOracle) : List Nat → BuildFs → LoopOut
  | [], s => { trace := [], attempts := [], state := s, exit := .toPublish }
  | i :: rest, s =>
    let s1 := mkTempDir s
    let s2 := { s1 with temp := o.mid i }
    if o.exit i = some 0 then
      let s3 := { s2 with temp := .complete }
      { trace := [s1, s2, s3], attempts := [i], state := s3,
        exit := .toPublish }
    else
      let s3 := rmPkgdir s2
      let s4 := rmTempDir s3
      if i = 3 then
        { trace := [s1, s2, s3, s4], attempts := [i], state := s4,
          exit := .earlyReturn }
      else
        let s5 := { s4 with scratch := false }
        let s6 := { s5 with scratch := true }
        let out := buildLoop o rest s6
        { trace := [s1, s2, s3, s4, s5, s6] ++ out.trace,
          attempts := i :: out.attempts, state := out.state,
          exit := out.exit }

/-- Indices of the Rust iteration `for i in 1..3` (pkgbuild.rs 523): the
half-open range from 1 of length 3 - 1, i.e. `[1, 2]`. -/
def tryIndices : List Nat := List.range' 1 (3 - 1)

/-- Result of one `build` invocation. -/
structure BuildOut where
  trace : List BuildFs
  attempts : List Nat
  renamed : Bool
  result : Except String BuildFs
  deriving Repr

/-- One `build` invocation (pkgbuild.rs 484-572): the temp dir is created,
the retry loop runs over `tryIndices`, and — unless the loop returned
early — the scratch dir is removed, the stale output dir is removed, and
the temp dir is renamed over the output dir, a failing rename panicking
with "Failed to move result pkgdir".  The trace lists every observable
filesystem state in order. -/
def buildRun (o : BuildOracle) (s : BuildFs) : BuildOut :=
  let s0 := mkTempDir s
  let lo := buildLoop o tryIndices s0
  if lo.exit = .earlyReturn then
    { trace := s0 :: lo.trace, attempts := lo.attempts,
      renamed := false, result := .ok lo.state }
  else
    let s1 := { lo.state with scratch := false }
    let s2 := rmPkgdir s1
    if s2.temp = .absent then
      { trace := s0 :: lo.trace ++ [s1, s2], attempts := lo.attempts,
        renamed := false, result := .error "Failed to move result pkgdir" }
    else
      let s3 := { s2 with pkgdir := s2.temp, temp := .absent }
      { trace := s0 :: lo.trace ++ [s1, s2, s3], attempts := lo.attempts,
        renamed := true, result := .ok s3 }

/-- Path of the temp dir built by `build` (pkgbuild.rs 485-488): the output
dir with `.temp` appended to its file name. -/
def temp_pkgdir (pkgid : String) : String := output_dir pkgid ++ ".temp"

/-- Child command as constructed by `build`. -/
structure ChildCommand where
  program : String
  args : List String
  arg0 : String
  cwd : String
  env : List (String × String)
  deriving DecidableEq, Repr

/-- Flags passed to makepkg by `build` (pkgbuild.rs 500, 505-509). -/
def makepkgArgs : List String :=
  ["--holdver", "--nodeps", "--noextract", "--ignorearch"]

/-- Build command constructed by `build` (pkgbuild.rs 490-522): makepkg with
its four flags, wrapped in unshare namespaces when nonet is set, run inside
the scratch dir, with PATH and HOME forwarded and PKGDEST pointing at the
absolute temp dir (canonicalisation modelled as the identity). -/
def build_command (pkgid buildDir pathEnv homeEnv : String) (uid gid : Nat)
    (nonet : Bool) : ChildCommand :=
  let pa : String × List String :=
    if nonet then
      ("/usr/bin/unshare",
        ["--map-root-user", "--net", "--", "sh", "-c",
          "ip link set dev lo up unshare --map-users=" ++ toString uid
            ++ ":0:1 --map-groups=" ++ toString gid
            ++ ":0:1 -- makepkg --holdver --nodeps --noextract --ignorearch"])
    else
      ("/bin/bash", "/usr/bin/makepkg" :: makepkgArgs)
  { program := pa.1
    args := pa.2
    arg0 := "[BUILDER/" ++ pkgid ++ "] /bin/bash"
    cwd := buildDir
    env := [("PATH", pathEnv), ("HOME", homeEnv),
            ("PKGDEST", temp_pkgdir pkgid)] }

theorem buildLoop_pkgdir (o : BuildOracle) :
    ∀ (idxs : List Nat) (s : BuildFs),
      (∀ t ∈ (buildLoop o idxs s).trace,
        t.pkgdir = s.pkgdir ∨ t.pkgdir = DirState.absent) ∧
      ((buildLoop o idxs s).state.pkgdir = s.pkgdir ∨
        (buildLoop o idxs s).state.pkgdir = DirState.absent) := by
  intro idxs
  induction idxs with
  | nil => intro s; simp [buildLoop]
  | cons i rest ih =>
    intro s
    by_cases hs : o.exit i = some 0
    · simp [buildLoop, hs, mkTempDir]
    · by_cases h3 : i = 3
      · subst h3
        simp [buildLoop, hs, mkTempDir, rmPkgdir, rmTempDir]
      · have hrec1 := (ih ⟨.absent, .absent, true⟩).1
        have hrec2 := (ih ⟨.absent, .absent, true⟩).2
        simp only [or_self] at hrec1 hrec2
        simp only [buildLoop, hs, h3, mkTempDir, rmPkgdir, rmTempDir,
          ite_true, ite_false, if_true, if_false]
        refine ⟨fun t ht => ?_, by simp [hrec2]⟩
        simp only [List.append_eq, List.mem_append, List.mem_cons,
          List.not_mem_nil, or_false] at ht
        rcases ht with (rfl | rfl | rfl | rfl | rfl | rfl) | ht
        · exact Or.inl rfl
        · exact Or.inl rfl
        · exact Or.inr rfl
        · exact Or.inr rfl
        · exact Or.inr rfl
        · exact Or.inr rfl
        · exact Or.inr (hrec1 t ht)

theorem buildLoop_publish_temp (o : BuildOracle) :
    ∀ (idxs : List Nat) (s : BuildFs), idxs ≠ [] →
      (buildLoop o idxs s).exit = .toPublish →
      ((buildLoop o idxs s).state.temp = DirState.complete ∧
        ∃ i ∈ (buildLoop o idxs s).attempts, o.exit i = some 0) ∨
      (buildLoop o idxs s).state.temp = DirState.absent := by
  intro idxs
  induction idxs with
  | nil => intro s h; exact absurd rfl h
  | cons i rest ih =>
    intro s _ hexit
    by_cases hs : o.exit i = some 0
    · left
      refine ⟨by simp [buildLoop, hs], i, by simp [buildLoop, hs], hs⟩
    · by_cases h3 : i = 3
      · exfalso
        subst h3
        simp [buildLoop, hs] at hexit
      · rcases eq_or_ne rest [] with hrest | hrest
        · subst hrest
          right
          simp [buildLoop, hs, h3, mkTempDir, rmPkgdir, rmTempDir]
        · have hexit' :
              (buildLoop o rest ⟨.absent, .absent, true⟩).exit
                = .toPublish := by
            simpa [buildLoop, hs, h3, mkTempDir, rmPkgdir, rmTempDir]
              using hexit
          rcases ih ⟨.absent, .absent, true⟩ hrest hexit' with
            ⟨ht, j, hj, hj0⟩ | ht
          · left
            refine ⟨?_, j, ?_, hj0⟩ <;>
              simp [buildLoop, hs, h3, mkTempDir, rmPkgdir, rmTempDir, ht, hj]
          · right
            simp [buildLoop, hs, h3, mkTempDir, rmPkgdir, rmTempDir, ht]

/-- C1: at every observable instant of a build, the output directory is
absent or complete, never partial; build artifacts are written only through
PKGDEST, which the build command points at `<output_dir>.temp`; and the
temp dir is renamed over the output dir only when some attempt exited 0. -/
theorem build_atomic_publish :
    ∀ (o : BuildOracle) (s : BuildFs), s.pkgdir ≠ DirState.incomplete →
      (∀ t ∈ (buildRun o s).trace, t.pkgdir ≠ DirState.incomplete) ∧
      ((buildRun o s).renamed = true →
        ∃ i ∈ (buildRun o s).attempts, o.exit i = some 0) ∧
      (∀ (pkgid buildDir pathEnv homeEnv : String) (uid gid : Nat)
          (nonet : Bool),
        ((build_command pkgid buildDir pathEnv homeEnv uid gid
            nonet).env).lookup "PKGDEST"
          = some (output_dir pkgid ++ ".temp")) := by
  intro o s hs
  have h1 := buildLoop_pkgdir o tryIndices (mkTempDir s)
  have h2 := buildLoop_publish_temp o tryIndices (mkTempDir s) (by decide)
  refine ⟨?_, ?_, fun pkgid buildDir pathEnv homeEnv uid gid nonet => rfl⟩
  · intro t ht
    simp only [buildRun, rmPkgdir_temp] at ht
    by_cases hex : (buildLoop o tryIndices (mkTempDir s)).exit
        = LoopExit.earlyReturn
    · rw [if_pos hex] at ht
      simp only [List.append_eq, List.mem_cons] at ht
      rcases ht with rfl | ht
      · exact hs
      · rcases h1.1 t ht with h | h
        · rw [h, mkTempDir_pkgdir]; exact hs
        · rw [h]; simp
    · rw [if_neg hex] at ht
      have hpub : (buildLoop o tryIndices (mkTempDir s)).exit
          = LoopExit.toPublish := by
        cases hq : (buildLoop o tryIndices (mkTempDir s)).exit
        · exact absurd hq hex
        · rfl
      by_cases htemp : (buildLoop o tryIndices (mkTempDir s)).state.temp
          = DirState.absent
      · rw [if_pos htemp] at ht
        simp only [List.append_eq, List.mem_cons, List.mem_append,
          List.not_mem_nil, or_false] at ht
        rcases ht with (rfl | ht) | rfl | rfl
        · exact hs
        · rcases h1.1 t ht with h | h
          · rw [h, mkTempDir_pkgdir]; exact hs
          · rw [h]; simp
        · rcases h1.2 with h | h
          · simpa [h] using hs
          · simp [h]
        · simp [rmPkgdir]
      · rw [if_neg htemp] at ht
        simp only [List.append_eq, List.mem_cons, List.mem_append,
          List.not_mem_nil, or_false] at ht
        rcases ht with (rfl | ht) | rfl | rfl | rfl
        · exact hs
        · rcases h1.1 t ht with h | h
          · rw [h, mkTempDir_pkgdir]; exact hs
          · rw [h]; simp
        · rcases h1.2 with h | h
          · simpa [h] using hs
          · simp [h]
        · simp [rmPkgdir]
        · rcases h2 hpub with ⟨hc, _⟩ | ha
          · simp [rmPkgdir, hc]
          · exact absurd ha htemp
  · intro hren
    simp only [buildRun, rmPkgdir_temp] at hren ⊢
    by_cases hex : (buildLoop o tryIndices (mkTempDir s)).exit
        = LoopExit.earlyReturn
    · rw [if_pos hex] at hren
      simp at hren
    · rw [if_neg hex] at hren ⊢
      have hpub : (buildLoop o tryIndices (mkTempDir s)).exit
          = LoopExit.toPublish := by
        cases hq : (buildLoop o tryIndices (mkTempDir s)).exit
        · exact absurd hq hex
        · rfl
      by_cases htemp : (buildLoop o tryIndices (mkTempDir s)).state.temp
          = DirState.absent
      · rw [if_pos htemp] at hren
        simp at hren
      · rw [if_neg htemp] at hren ⊢
        rcases h2 hpub with ⟨_, j, hj, hj0⟩ | ha
        · exact ⟨j, hj, hj0⟩
        · exact absurd ha htemp

/-- Oracle of a build that succeeds on the first attempt. -/
def succeedOracle : BuildOracle :=
  { exit := fun _ => some 0, mid := fun _ => .incomplete }

/-- Initial state with no output dir, no temp dir, extracted sources. -/
def emptyStart : BuildFs :=
  { pkgdir := .absent, temp := .absent, scratch := true }

/-- Witness for `build_atomic_publish`: a build from an absent output dir
that succeeds on its first attempt. -/
theorem build_atomic_publish_witness :
    emptyStart.pkgdir ≠ DirState.incomplete ∧
    (∀ t ∈ (buildRun succeedOracle emptyStart).trace,
      t.pkgdir ≠ DirState.incomplete) ∧
    ((buildRun succeedOracle emptyStart).renamed = true →
      ∃ i ∈ (buildRun succeedOracle emptyStart).attempts,
        succeedOracle.exit i = some 0) :=
  have h := build_atomic_publish succeedOracle emptyStart (by decide)
  ⟨by decide, h.1, h.2.1⟩

/-- Oracle of a recipe whose build child exits 1 on attempts 1 and 2 and
would exit 0 on attempt 3. -/
def failTwiceOracle : BuildOracle :=
  { exit := fun i => if i = 3 then some 0 else some 1
    mid := fun _ => .incomplete }

/-- C2 evaluated at the failing input: the Rust iteration `for i in 1..3`
spawns makepkg for attempts 1 and 2 only — two children, not three — even
for a recipe that would succeed on attempt 3, and the run then ends in the
rename panic instead of a third attempt. -/
theorem build_attempts_only_two :
    (buildRun failTwiceOracle emptyStart).attempts = [1, 2] ∧
    (buildRun failTwiceOracle emptyStart).attempts.length = 2 ∧
    tryIndices = [1, 2] ∧
    (buildRun failTwiceOracle emptyStart).result
      = .error "Failed to move result pkgdir" :=
  ⟨rfl, rfl, rfl, rfl⟩

/-- Oracle of a recipe whose build child always exits 1. -/
def alwaysFailOracle : BuildOracle :=
  { exit := fun _ => some 1, mid := fun _ => .incomplete }

/-- C3 evaluated at the failing input: when every attempt fails, `build`
never takes the skip-and-return path (the `i == 3` guard is unreachable);
it falls through to the publish step, where renaming the already-removed
temp dir fails and the builder thread panics with "Failed to move result
pkgdir" — although the output dir and temp dir are indeed both gone. -/
theorem build_all_fail_panics :
    (buildRun alwaysFailOracle emptyStart).result
      = .error "Failed to move result pkgdir" ∧
    (buildRun alwaysFailOracle emptyStart).renamed = false ∧
    (buildRun alwaysFailOracle emptyStart).attempts = [1, 2] ∧
    ((buildRun alwaysFailOracle emptyStart).trace.getLast?).map
      (fun t => (t.pkgdir, t.temp))
      = some (DirState.absent, DirState.absent) :=
  ⟨rfl, rfl, rfl, rfl⟩

end ArchRepoBuilder
